import Mathlib

/-!
# Calculator_Pro — verification of the core state machine

Shallow embedding of the calculator logic of `src/App.tsx`.

JavaScript numbers are modelled as exact values: an unreduced integer
fraction (`JQ`, invariant: denominators produced by the model are
positive) together with the IEEE special values `Infinity`, `-Infinity`
and `NaN` (`JSNum`).  Finite arithmetic is exact rational arithmetic;
floating-point rounding is idealised away (every value reached by the
verified claims is exactly representable).  `Number.prototype.toString`
is modelled for terminating decimal expansions, which covers every value
the claims evaluate.

JavaScript strings are modelled by Lean `String`; `String.includes` is
modelled by the substring test `jsIncludes`.
-/

/-- A finite JavaScript number, as an unreduced fraction `num / den`.
All values built by the model have `den > 0`. -/
structure JQ where
  num : Int
  den : Nat
deriving DecidableEq, Repr

/-- A JavaScript number: finite, `±Infinity`, or `NaN`.
`inf b` is `-Infinity` when `b = true`, `+Infinity` when `b = false`. -/
inductive JSNum where
  | fin : JQ → JSNum
  | inf : Bool → JSNum
  | nan : JSNum
deriving DecidableEq, Repr

/-- JS `a + b` on numbers (IEEE special-value rules). -/
def jsAdd : JSNum → JSNum → JSNum
  | .nan, _ => .nan
  | _, .nan => .nan
  | .inf s, .inf t => if s = t then .inf s else .nan
  | .inf s, .fin _ => .inf s
  | .fin _, .inf s => .inf s
  | .fin a, .fin b => .fin ⟨a.num * b.den + b.num * a.den, a.den * b.den⟩

/-- JS unary minus on numbers. -/
def jsNeg : JSNum → JSNum
  | .nan => .nan
  | .inf s => .inf (!s)
  | .fin a => .fin ⟨-a.num, a.den⟩

/-- JS `a - b` on numbers. -/
def jsSub (a b : JSNum) : JSNum := jsAdd a (jsNeg b)

/-- JS `a * b` on numbers (IEEE: `Infinity * 0 = NaN`, signs multiply). -/
def jsMul : JSNum → JSNum → JSNum
  | .nan, _ => .nan
  | _, .nan => .nan
  | .inf s, .inf t => .inf (xor s t)
  | .inf s, .fin b =>
      if b.num = 0 then .nan else .inf (xor s (decide (b.num < 0)))
  | .fin b, .inf s =>
      if b.num = 0 then .nan else .inf (xor s (decide (b.num < 0)))
  | .fin a, .fin b => .fin ⟨a.num * b.num, a.den * b.den⟩

/-- JS `a / b` on numbers (IEEE: `Infinity / Infinity = NaN`,
`x / Infinity = 0`, division of a nonzero finite by zero gives a signed
infinity). -/
def jsDiv : JSNum → JSNum → JSNum
  | .nan, _ => .nan
  | _, .nan => .nan
  | .inf _, .inf _ => .nan
  | .inf s, .fin b => .inf (xor s (decide (b.num < 0)))
  | .fin _, .inf _ => .fin ⟨0, 1⟩
  | .fin a, .fin b =>
      if b.num = 0 then
        if a.num = 0 then .nan else .inf (decide (a.num < 0))
      else if b.num < 0 then .fin ⟨-(a.num * b.den), a.den * b.num.natAbs⟩
      else .fin ⟨a.num * b.den, a.den * b.num.natAbs⟩

/-- JS `v === 0` for a number `v` (`NaN === 0` and `Infinity === 0` are
false; a finite value is zero exactly when its numerator is). -/
def jsIsZero : JSNum → Bool
  | .fin q => q.num = 0
  | _ => false

/-- The decimal digit character for `n` (called with `n < 10`). -/
def digitChar (n : Nat) : Char :=
  if n = 0 then '0' else if n = 1 then '1' else if n = 2 then '2'
  else if n = 3 then '3' else if n = 4 then '4' else if n = 5 then '5'
  else if n = 6 then '6' else if n = 7 then '7' else if n = 8 then '8'
  else '9'

/-- Decimal digits of `n`, accumulator-style with explicit fuel. -/
def natDigitsAux : Nat → Nat → List Char → List Char
  | 0, _, acc => acc
  | fuel + 1, n, acc =>
      if n < 10 then digitChar n :: acc
      else natDigitsAux fuel (n / 10) (digitChar (n % 10) :: acc)

/-- Decimal representation of a natural number. -/
def natRepr (n : Nat) : String := ⟨natDigitsAux (n + 1) n []⟩

/-- Left-pad a string with `'0'` up to length `k`. -/
def padZeros (k : Nat) (s : String) : String :=
  ⟨List.replicate (k - s.data.length) '0' ++ s.data⟩

/-- Smallest `k ≤ 17` such that `a / den` has a terminating decimal
expansion with `k` fractional digits (`17` when none exists). -/
def findFracLen (a den : Nat) : Nat :=
  ((List.range 18).find? (fun k => a * 10 ^ k % den = 0)).getD 17

/-- Decimal expansion of the nonnegative fraction `a / den` with the
fractional length chosen by `findFracLen`. -/
def jqBody (a den : Nat) : String :=
  let k := findFracLen a den
  let m := a * 10 ^ k / den
  if k = 0 then natRepr m
  else natRepr (m / 10 ^ k) ++ "." ++ padZeros k (natRepr (m % 10 ^ k))

/-- JS `String(q)` for a finite number: shortest terminating decimal
expansion (idealised to 17 truncated fractional digits for values whose
expansion does not terminate). -/
def jqToString (q : JQ) : String :=
  if q.num < 0 then "-" ++ jqBody q.num.natAbs q.den
  else jqBody q.num.natAbs q.den

/-- JS `String(v)` for a number `v`. -/
def jsString : JSNum → String
  | .nan => "NaN"
  | .inf false => "Infinity"
  | .inf true => "-Infinity"
  | .fin q => jqToString q

/-- JS `haystack.includes(needle)` (substring test). -/
def jsIncludes (haystack needle : String) : Bool :=
  haystack.data.tails.any (fun t => needle.data.isPrefixOf t)

/-- Numeric value of a list of decimal digit characters. -/
def digitsVal (l : List Char) : Nat :=
  l.foldl (fun acc c => 10 * acc + (c.toNat - 48)) 0

/-- JS `parseFloat(s)`, restricted to the grammar the calculator can
produce: optional `-`, then either `Infinity` or a decimal literal
(digits, optional point, digits); anything else parses as `NaN`.
Exponent notation is not modelled (never produced by the model). -/
def jsParseFloat (s : String) : JSNum :=
  let (neg, cs) :=
    match s.data with
    | '-' :: rest => (true, rest)
    | l => (false, l)
  if "Infinity".data.isPrefixOf cs then .inf neg
  else
    let intDs := cs.takeWhile Char.isDigit
    let rest := cs.dropWhile Char.isDigit
    let fracDs :=
      match rest with
      | '.' :: t => t.takeWhile Char.isDigit
      | _ => []
    if intDs = [] ∧ fracDs = [] then .nan
    else
      let n : Int := digitsVal intDs * 10 ^ fracDs.length + digitsVal fracDs
      .fin ⟨if neg then -n else n, 10 ^ fracDs.length⟩

/-- Insert `','` thousand separators, walking the reversed digit list. -/
def groupAux : List Char → Nat → List Char
  | [], _ => []
  | c :: cs, i =>
      if i ≠ 0 ∧ i % 3 = 0 then ',' :: c :: groupAux cs (i + 1)
      else c :: groupAux cs (i + 1)

/-- Group the digits of a string with `','` thousand separators. -/
def insertCommas (s : String) : String :=
  ⟨(groupAux s.data.reverse 0).reverse⟩

/-- JS rounding of an exact fraction to the nearest integer
(`toLocaleString` with `maximumFractionDigits: 0`; every value reached
by the claims is already an integer). -/
def jqRound (q : JQ) : Int := (2 * q.num + q.den).fdiv (2 * q.den)

/-- JS `v.toLocaleString('en-US', { maximumFractionDigits: 0 })`. -/
def jsToLocaleString : JSNum → String
  | .nan => "NaN"
  | .inf false => "∞"
  | .inf true => "-∞"
  | .fin q =>
      let r := jqRound q
      (if r < 0 then "-" else "") ++ insertCommas (natRepr r.natAbs)

/-- The four operator buttons (`src/types.ts`: the union
`'+' | '-' | '×' | '÷'`). -/
inductive Operation where
  | add | sub | mul | div
deriving DecidableEq, Repr

/-- The button symbol of an operation (its value in the source union). -/
def Operation.symbol : Operation → String
  | .add => "+" | .sub => "-" | .mul => "×" | .div => "÷"

/-- `calculate` of `src/App.tsx`: the arithmetic core; division by zero
returns `Infinity` for every first operand. -/
def calculate (val1 val2 : JSNum) : Operation → JSNum
  | .add => jsAdd val1 val2
  | .sub => jsSub val1 val2
  | .mul => jsMul val1 val2
  | .div => if jsIsZero val2 then .inf false else jsDiv val1 val2

/-- `CalculatorState` of `src/App.tsx`. -/
structure CalculatorState where
  displayValue : String
  previousValue : Option JSNum
  operation : Option Operation
  waitingForOperand : Bool
  history : String
deriving DecidableEq, Repr

/-- `initialState` of `src/App.tsx`. -/
def initialState : CalculatorState :=
  { displayValue := "0"
    previousValue := none
    operation := none
    waitingForOperand := false
    history := "" }

/-- `formatDisplayValue` of `src/App.tsx`: renders `Infinity` values as
the error marker, otherwise groups the integer part with `en-US`
thousand separators and keeps the typed fractional digits verbatim. -/
def formatDisplayValue (value : String) : String :=
  if jsIncludes value "Infinity" then "Error"
  else
    let integer : String := ⟨value.data.takeWhile (· ≠ '.')⟩
    let decimal : String :=
      match value.data.dropWhile (· ≠ '.') with
      | _ :: t => ⟨t.takeWhile (· ≠ '.')⟩
      | [] => ""
    let formattedInteger := jsToLocaleString (jsParseFloat integer)
    if decimal ≠ "" then formattedInteger ++ "." ++ decimal
    else formattedInteger

/-- `clearAll` of `src/App.tsx`. -/
def clearAll (_ : CalculatorState) : CalculatorState := initialState

/-- `inputDigit` of `src/App.tsx`. -/
def inputDigit (digit : String) (s : CalculatorState) : CalculatorState :=
  if s.waitingForOperand then
    { s with displayValue := digit, waitingForOperand := false }
  else if s.displayValue.length ≥ 15 then s
  else
    { s with displayValue :=
        if s.displayValue = "0" then digit else s.displayValue ++ digit }

/-- `inputDecimal` of `src/App.tsx`. -/
def inputDecimal (s : CalculatorState) : CalculatorState :=
  if s.waitingForOperand then
    { s with displayValue := "0.", waitingForOperand := false }
  else if !(jsIncludes s.displayValue ".") then
    { s with displayValue := s.displayValue ++ "." }
  else s

/-- `performOperation` of `src/App.tsx`. -/
def performOperation (nextOperation : Operation) (s : CalculatorState) :
    CalculatorState :=
  let inputValue := jsParseFloat s.displayValue
  match s.previousValue with
  | none =>
      { s with
          previousValue := some inputValue
          waitingForOperand := true
          operation := some nextOperation
          history :=
            formatDisplayValue s.displayValue ++ " " ++
              nextOperation.symbol }
  | some prev =>
      match s.operation with
      | some op =>
          let result := calculate prev inputValue op
          let resultString := jsString result
          { s with
              previousValue := some result
              displayValue := resultString
              waitingForOperand := true
              operation := some nextOperation
              history :=
                formatDisplayValue resultString ++ " " ++
                  nextOperation.symbol }
      | none => s

/-- `performEquals` of `src/App.tsx`. -/
def performEquals (s : CalculatorState) : CalculatorState :=
  match s.operation, s.previousValue with
  | some op, some prev =>
      let result := calculate prev (jsParseFloat s.displayValue) op
      { initialState with displayValue := jsString result }
  | _, _ => s

/-- `handleButtonClick` of `src/App.tsx`: the input dispatcher.  Note
the digit test is JS `'0123456789'.includes(label)`, a substring test. -/
def handleButtonClick (label : String) (s : CalculatorState) :
    CalculatorState :=
  if jsIncludes "0123456789" label then inputDigit label s
  else if label = "." then inputDecimal s
  else if label = "AC" then clearAll s
  else if label = "÷" then performOperation .div s
  else if label = "×" then performOperation .mul s
  else if label = "-" then performOperation .sub s
  else if label = "+" then performOperation .add s
  else if label = "=" then performEquals s
  else s

/-- Feed a token sequence into the machine, starting from the initial
state. -/
def dispatchAll (tokens : List String) : CalculatorState :=
  tokens.foldl (fun s t => handleButtonClick t s) initialState

/-- `render` (§6 of the spec; the display JSX of `src/App.tsx`): the
main display text and the secondary history line of a state. -/
def render (s : CalculatorState) : String × String :=
  (formatDisplayValue s.displayValue, s.history)

/-! ## Helper lemmas about the substring test -/

theorem jsIncludes_eq_true_iff {h n : String} :
    jsIncludes h n = true ↔ n.data <:+: h.data := by
  unfold jsIncludes
  rw [List.any_eq_true]
  constructor
  · rintro ⟨t, ht, hp⟩
    rw [List.mem_tails] at ht
    simp only [List.isPrefixOf_iff_prefix] at hp
    exact hp.isInfix.trans ht.isInfix
  · rintro ⟨u, v, huv⟩
    refine ⟨n.data ++ v, ?_, ?_⟩
    · rw [List.mem_tails]
      exact ⟨u, by rw [← huv, List.append_assoc]⟩
    · simp

theorem jsIncludes_dot_iff {s : String} :
    jsIncludes s "." = true ↔ '.' ∈ s.data := by
  rw [jsIncludes_eq_true_iff]
  constructor
  · intro hinf
    exact hinf.subset (by simp [show (".").data = ['.'] from rfl])
  · intro hm
    obtain ⟨a, b, hab⟩ := List.append_of_mem hm
    exact ⟨a, b, by simp [hab, show (".").data = ['.'] from rfl]⟩

/-! ## C1 — operator chaining -/

/-- C1: dispatching Digit 5, Operator +, Digit 3, Operator ×, Digit 2,
Equals from the initial state renders main display `"16"`; the pending
`5 + 3` is resolved to `8` (shown and stored) when `×` is pressed, and
Equals computes `8 × 2 = 16`. -/
theorem chaining_resolves_left_to_right :
    (dispatchAll ["5", "+", "3", "×"]).displayValue = "8" ∧
    (dispatchAll ["5", "+", "3", "×"]).previousValue = some (.fin ⟨8, 1⟩) ∧
    (dispatchAll ["5", "+", "3", "×", "2", "="]).displayValue = "16" ∧
    (render (dispatchAll ["5", "+", "3", "×", "2", "="])).1 = "16" := by
  decide

/-! ## C2 — division by zero yields the sentinel -/

/-- C2: for every first operand `a` (finite, infinite or `NaN`),
`calculate a b ÷` with a zero second operand returns the `Infinity`
sentinel (a value, not an exception: `calculate` is total), and
rendering any state whose display buffer holds the sentinel string
produces the error marker `"Error"`. -/
theorem divide_by_zero_sentinel :
    (∀ (a : JSNum) (b : JQ), b.num = 0 →
        calculate a (.fin b) .div = .inf false) ∧
    ∀ s : CalculatorState,
      (render { s with displayValue := jsString (.inf false) }).1 =
        "Error" := by
  constructor
  · intro a b hb
    simp [calculate, jsIsZero, hb]
  · intro s
    show formatDisplayValue (jsString (JSNum.inf false)) = "Error"
    decide

/-- Witness for C2 at `a = NaN`, `b = 0/5`, and the initial state. -/
theorem divide_by_zero_sentinel_witness :
    calculate .nan (.fin ⟨0, 5⟩) .div = .inf false ∧
    (render { initialState with displayValue := jsString (.inf false) }).1 =
      "Error" :=
  ⟨divide_by_zero_sentinel.1 .nan ⟨0, 5⟩ rfl,
   divide_by_zero_sentinel.2 initialState⟩

/-! ## C3 — sentinel propagation -/

/-- C3 counterexample: multiplying the sentinel by the second operand
`0` yields `NaN`, not the sentinel, and the resulting display renders
as `"NaN"`, not the error marker.  (Reachable: `9 ÷ 0 = × 0 =`.) -/
theorem sentinel_times_zero_counterexample :
    calculate (.inf false) (.fin ⟨0, 1⟩) .mul = .nan ∧
    JSNum.nan ≠ JSNum.inf false ∧
    formatDisplayValue
        (jsString (calculate (.inf false) (.fin ⟨0, 1⟩) .mul)) = "NaN" := by
  decide

/-- C3 amended: the sentinel propagates through every operator for
every positive finite second operand, and through divide for a zero
second operand, and the sentinel renders as the error marker; but
multiplying the sentinel by zero yields `NaN`, which renders as
`"NaN"` rather than the error marker. -/
theorem sentinel_propagation_amended (q : JQ) (_hden : 0 < q.den)
    (hpos : 0 < q.num) :
    (∀ op : Operation, calculate (.inf false) (.fin q) op = .inf false) ∧
    calculate (.inf false) (.fin ⟨0, 1⟩) .div = .inf false ∧
    calculate (.inf false) (.fin ⟨0, 1⟩) .mul = .nan ∧
    formatDisplayValue (jsString (.inf false)) = "Error" ∧
    formatDisplayValue (jsString .nan) = "NaN" := by
  have h0 : q.num ≠ 0 := by omega
  have h1 : ¬ q.num < 0 := by omega
  refine ⟨?_, by decide, by decide, by decide, by decide⟩
  intro op
  cases op <;>
    simp [calculate, jsAdd, jsSub, jsNeg, jsMul, jsDiv, jsIsZero, h0, h1]

/-- Witness for C3 (amended) at the positive operand `2`. -/
theorem sentinel_propagation_amended_witness :
    (∀ op : Operation, calculate (.inf false) (.fin ⟨2, 1⟩) op = .inf false) ∧
    calculate (.inf false) (.fin ⟨0, 1⟩) .div = .inf false ∧
    calculate (.inf false) (.fin ⟨0, 1⟩) .mul = .nan ∧
    formatDisplayValue (jsString (.inf false)) = "Error" ∧
    formatDisplayValue (jsString .nan) = "NaN" :=
  sentinel_propagation_amended ⟨2, 1⟩ (by decide) (by decide)

/-! ## C4 — pressing two operators in a row -/

/-- C4 counterexample: after `5 +` the machine awaits an operand, yet
dispatching `×` changes the pending operator from `+` to `×` (and
eagerly computes `5 + 5 = 10` using the stale display). -/
theorem second_operator_counterexample :
    (dispatchAll ["5", "+"]).waitingForOperand = true ∧
    (dispatchAll ["5", "+"]).operation = some .add ∧
    (handleButtonClick "×" (dispatchAll ["5", "+"])).operation =
      some .mul ∧
    (handleButtonClick "×" (dispatchAll ["5", "+"])).displayValue =
      "10" := by
  decide

/-- C4 amended: from any state awaiting an operand with a pending
operand and operator, dispatching a second operator resolves the
pending operation using the current display value as second operand,
stores the result, and replaces the pending operator with the new
one. -/
theorem second_operator_replaces (s : CalculatorState) (p : JSNum)
    (op nextOp : Operation) (_hw : s.waitingForOperand = true)
    (hp : s.previousValue = some p) (ho : s.operation = some op) :
    (performOperation nextOp s).operation = some nextOp ∧
    (performOperation nextOp s).previousValue =
      some (calculate p (jsParseFloat s.displayValue) op) ∧
    (performOperation nextOp s).displayValue =
      jsString (calculate p (jsParseFloat s.displayValue) op) := by
  simp [performOperation, hp, ho]

/-- Witness for C4 (amended) at the state reached by `5 +`. -/
theorem second_operator_replaces_witness :
    (performOperation .mul (dispatchAll ["5", "+"])).operation =
      some .mul ∧
    (performOperation .mul (dispatchAll ["5", "+"])).previousValue =
      some (calculate (.fin ⟨5, 1⟩)
        (jsParseFloat (dispatchAll ["5", "+"]).displayValue) .add) ∧
    (performOperation .mul (dispatchAll ["5", "+"])).displayValue =
      jsString (calculate (.fin ⟨5, 1⟩)
        (jsParseFloat (dispatchAll ["5", "+"]).displayValue) .add) :=
  second_operator_replaces (dispatchAll ["5", "+"]) (.fin ⟨5, 1⟩) .add .mul
    (by decide) (by decide) (by decide)

/-! ## C5 — unrecognized tokens -/

/-- C5 counterexample: the token `"23"` is none of the recognized
tokens (single digit, point, operator, `AC`, `=`), yet dispatching it
changes the state: the dispatcher's digit test is the JS substring test
`'0123456789'.includes(label)`, which accepts any contiguous digit run,
so `"23"` is fed to the digit transition and the display becomes
`"23"`. -/
theorem unknown_token_counterexample :
    "23" ∉ (["0", "1", "2", "3", "4", "5", "6", "7", "8", "9", ".",
        "÷", "×", "-", "+", "AC", "="] : List String) ∧
    handleButtonClick "23" initialState ≠ initialState ∧
    (handleButtonClick "23" initialState).displayValue = "23" := by
  decide

/-- C5 amended: a token that fails the dispatcher's digit substring
test (which, unlike the claim's single-digit set, also accepts
multi-digit runs such as `"23"` and the empty string) and is not `"."`,
`"AC"`, an operator symbol, or `"="` leaves every state unchanged and
raises no error. -/
theorem unknown_token_ignored (s : CalculatorState) (label : String)
    (h1 : jsIncludes "0123456789" label = false) (h2 : label ≠ ".")
    (h3 : label ≠ "AC") (h4 : label ≠ "÷") (h5 : label ≠ "×")
    (h6 : label ≠ "-") (h7 : label ≠ "+") (h8 : label ≠ "=") :
    handleButtonClick label s = s := by
  simp [handleButtonClick, h1, h2, h3, h4, h5, h6, h7, h8]

/-- Witness for C5 (amended) at the token `"%"` (an actual button whose
handler is not wired to the dispatcher). -/
theorem unknown_token_ignored_witness :
    handleButtonClick "%" initialState = initialState :=
  unknown_token_ignored initialState "%" (by decide) (by decide)
    (by decide) (by decide) (by decide) (by decide) (by decide)
    (by decide)

/-! ## C9 — Equals is idempotent -/

/-- Dispatching `"="` invokes `performEquals`. -/
theorem handleButtonClick_equals (s : CalculatorState) :
    handleButtonClick "=" s = performEquals s := by
  have h1 : jsIncludes "0123456789" "=" = false := by decide
  simp [handleButtonClick, h1]

/-! ## C10 — the length cap is a digit-transition concern only -/

/-- C10: the 15-character cap is enforced only by the digit transition
(a digit is dropped silently once the buffer has 15 or more
characters), while the decimal-point transition performs no length
check: from any non-awaiting state whose buffer is exactly 15 digits,
dispatching the decimal point still appends it, producing a
16-character buffer. -/
theorem length_cap_only_on_digits :
    (∀ (s : CalculatorState) (d : String), s.waitingForOperand = false →
        15 ≤ s.displayValue.length → inputDigit d s = s) ∧
    ∀ s : CalculatorState, s.waitingForOperand = false →
      s.displayValue.length = 15 →
      (∀ c ∈ s.displayValue.data, c.isDigit) →
      (inputDecimal s).displayValue.length = 16 := by
  constructor
  · intro s d hw hl
    simp [inputDigit, hw, hl]
  · intro s hw hlen hdig
    have hnodot : jsIncludes s.displayValue "." = false := by
      rw [Bool.eq_false_iff]
      intro hinc
      have hmem := jsIncludes_dot_iff.mp hinc
      have := hdig '.' hmem
      simp [Char.isDigit] at this
    simp [inputDecimal, hw, hnodot, hlen]
    decide

/-- Witness for C10 at a 15-digit buffer. -/
theorem length_cap_only_on_digits_witness :
    inputDigit "7" ⟨"111111111111111", none, none, false, ""⟩ =
      ⟨"111111111111111", none, none, false, ""⟩ ∧
    (inputDecimal
        ⟨"111111111111111", none, none, false, ""⟩).displayValue.length =
      16 :=
  ⟨length_cap_only_on_digits.1 ⟨"111111111111111", none, none, false, ""⟩
      "7" rfl (by decide),
   length_cap_only_on_digits.2 ⟨"111111111111111", none, none, false, ""⟩
      rfl (by decide) (by decide)⟩

/-! ## C6 — at most one decimal point -/

/-- Number of decimal points in a string. -/
def dotCount (s : String) : Nat := s.data.count '.'

theorem digitChar_ne_dot (n : Nat) : digitChar n ≠ '.' := by
  unfold digitChar
  split_ifs <;> decide

theorem natDigitsAux_ne_dot :
    ∀ (fuel n : Nat) (acc : List Char), (∀ c ∈ acc, c ≠ '.') →
      ∀ c ∈ natDigitsAux fuel n acc, c ≠ '.' := by
  intro fuel
  induction fuel with
  | zero =>
      intro n acc hacc c hc
      exact hacc c hc
  | succ f ih =>
      intro n acc hacc c hc
      rw [natDigitsAux] at hc
      by_cases h : n < 10
      · rw [if_pos h] at hc
        rcases List.mem_cons.mp hc with rfl | hmem
        · exact digitChar_ne_dot n
        · exact hacc c hmem
      · rw [if_neg h] at hc
        refine ih (n / 10) (digitChar (n % 10) :: acc) ?_ c hc
        intro d hd
        rcases List.mem_cons.mp hd with rfl | hmem
        · exact digitChar_ne_dot (n % 10)
        · exact hacc d hmem

theorem dotCount_natRepr (n : Nat) : dotCount (natRepr n) = 0 := by
  unfold dotCount natRepr
  rw [List.count_eq_zero]
  intro hmem
  exact natDigitsAux_ne_dot (n + 1) n [] (by simp) '.' hmem rfl

theorem dotCount_append (a b : String) :
    dotCount (a ++ b) = dotCount a + dotCount b := by
  simp [dotCount]

theorem dotCount_padZeros (k : Nat) (s : String) :
    dotCount (padZeros k s) = dotCount s := by
  show (List.replicate (k - s.data.length) '0' ++ s.data).count '.' =
    dotCount s
  rw [List.count_append]
  have hrep :
      (List.replicate (k - s.data.length) '0').count '.' = 0 := by
    rw [List.count_eq_zero]
    intro hmem
    exact absurd (List.eq_of_mem_replicate hmem) (by decide)
  rw [hrep]
  show 0 + dotCount s = dotCount s
  omega

theorem dotCount_jqBody (a den : Nat) : dotCount (jqBody a den) ≤ 1 := by
  simp only [jqBody]
  split_ifs with hk
  · simp [dotCount_natRepr]
  · rw [dotCount_append, dotCount_append, dotCount_padZeros,
      dotCount_natRepr, dotCount_natRepr]
    decide

theorem dotCount_jsString (v : JSNum) : dotCount (jsString v) ≤ 1 := by
  rcases v with q | b | _
  · show dotCount (jqToString q) ≤ 1
    unfold jqToString
    split_ifs
    · rw [dotCount_append]
      have := dotCount_jqBody q.num.natAbs q.den
      have hminus : dotCount "-" = 0 := by decide
      omega
    · exact dotCount_jqBody q.num.natAbs q.den
  · rcases b <;> decide
  · decide

theorem dotCount_digit_label {label : String}
    (h : jsIncludes "0123456789" label = true) : dotCount label = 0 := by
  have hinf := jsIncludes_eq_true_iff.mp h
  have hle := hinf.count_le '.'
  have hzero : ("0123456789" : String).data.count '.' = 0 := by decide
  unfold dotCount
  omega

theorem dotCount_inputDigit {label : String} {s : CalculatorState}
    (h : dotCount label = 0) (hs : dotCount s.displayValue ≤ 1) :
    dotCount (inputDigit label s).displayValue ≤ 1 := by
  unfold inputDigit
  split_ifs with h1 h2 h3
  · show dotCount label ≤ 1
    omega
  · exact hs
  · show dotCount label ≤ 1
    omega
  · show dotCount (s.displayValue ++ label) ≤ 1
    rw [dotCount_append]
    omega

theorem dotCount_inputDecimal {s : CalculatorState}
    (hs : dotCount s.displayValue ≤ 1) :
    dotCount (inputDecimal s).displayValue ≤ 1 := by
  unfold inputDecimal
  split_ifs with h1 h2
  · show dotCount "0." ≤ 1
    decide
  · show dotCount (s.displayValue ++ ".") ≤ 1
    rw [dotCount_append]
    have hfalse : jsIncludes s.displayValue "." = false := by
      simpa using h2
    have hnomem : '.' ∉ s.displayValue.data := by
      intro hmem
      rw [← jsIncludes_dot_iff] at hmem
      rw [hfalse] at hmem
      cases hmem
    have hzero : dotCount s.displayValue = 0 := by
      unfold dotCount
      rwa [List.count_eq_zero]
    have hdot : dotCount "." = 1 := by decide
    omega
  · exact hs

theorem dotCount_performOperation (op : Operation) {s : CalculatorState}
    (hs : dotCount s.displayValue ≤ 1) :
    dotCount (performOperation op s).displayValue ≤ 1 := by
  unfold performOperation
  rcases s.previousValue with _ | p
  · exact hs
  · rcases s.operation with _ | o
    · exact hs
    · exact dotCount_jsString _

theorem dotCount_performEquals {s : CalculatorState}
    (hs : dotCount s.displayValue ≤ 1) :
    dotCount (performEquals s).displayValue ≤ 1 := by
  unfold performEquals
  rcases s.operation with _ | o
  · exact hs
  · rcases s.previousValue with _ | p
    · exact hs
    · exact dotCount_jsString _

theorem dotCount_step (label : String) (s : CalculatorState)
    (hs : dotCount s.displayValue ≤ 1) :
    dotCount (handleButtonClick label s).displayValue ≤ 1 := by
  unfold handleButtonClick
  split_ifs with h1 h2 h3 h4 h5 h6 h7 h8
  · exact dotCount_inputDigit (dotCount_digit_label h1) hs
  · exact dotCount_inputDecimal hs
  · exact (by decide : dotCount initialState.displayValue ≤ 1)
  · exact dotCount_performOperation .div hs
  · exact dotCount_performOperation .mul hs
  · exact dotCount_performOperation .sub hs
  · exact dotCount_performOperation .add hs
  · exact dotCount_performEquals hs
  · exact hs

/-- C6: in every state reachable from the initial state by dispatching
any token sequence, the display buffer contains at most one decimal
point (in particular, consecutive decimal-point tokens add at most one
point: each transition preserves the bound, see `dotCount_step` and
`dotCount_inputDecimal`). -/
theorem display_at_most_one_dot (tokens : List String) :
    dotCount (dispatchAll tokens).displayValue ≤ 1 := by
  have gen : ∀ (ts : List String) (s : CalculatorState),
      dotCount s.displayValue ≤ 1 →
      dotCount (ts.foldl (fun s t => handleButtonClick t s)
        s).displayValue ≤ 1 := by
    intro ts
    induction ts with
    | nil => intro s hs; exact hs
    | cons t ts ih =>
        intro s hs
        exact ih _ (dotCount_step t s hs)
  exact gen tokens initialState (by decide)

/-! ## C7 — pending operand and operator travel together -/

/-- The invariant of C7: `previousValue` and `operation` are both
present or both absent. -/
def pendingConsistent (s : CalculatorState) : Prop :=
  s.previousValue.isSome = s.operation.isSome

theorem pendingConsistent_performOperation (op : Operation)
    {s : CalculatorState} (hs : pendingConsistent s) :
    pendingConsistent (performOperation op s) := by
  unfold pendingConsistent at *
  rcases hp : s.previousValue with _ | p <;>
    rcases ho : s.operation with _ | o <;>
      simp_all [performOperation]

theorem pendingConsistent_performEquals {s : CalculatorState}
    (hs : pendingConsistent s) :
    pendingConsistent (performEquals s) := by
  unfold pendingConsistent at *
  rcases ho : s.operation with _ | o <;>
    rcases hp : s.previousValue with _ | p <;>
      simp_all [performEquals, initialState]

theorem pendingConsistent_step (label : String) (s : CalculatorState)
    (hs : pendingConsistent s) :
    pendingConsistent (handleButtonClick label s) := by
  unfold handleButtonClick
  split_ifs with h1 h2 h3 h4 h5 h6 h7 h8
  · unfold inputDigit
    split_ifs <;> exact hs
  · unfold inputDecimal
    split_ifs <;> exact hs
  · exact rfl
  · exact pendingConsistent_performOperation .div hs
  · exact pendingConsistent_performOperation .mul hs
  · exact pendingConsistent_performOperation .sub hs
  · exact pendingConsistent_performOperation .add hs
  · exact pendingConsistent_performEquals hs
  · exact hs

/-- C7: in every state reachable from the initial state, the pending
operand (`previousValue`) and pending operator (`operation`) are both
present or both absent, and every single transition preserves this. -/
theorem pendingConsistent_dispatchAll (tokens : List String) :
    pendingConsistent (dispatchAll tokens) := by
  have gen : ∀ (ts : List String) (s : CalculatorState),
      pendingConsistent s →
      pendingConsistent (ts.foldl (fun s t => handleButtonClick t s) s) := by
    intro ts
    induction ts with
    | nil => intro s hs; exact hs
    | cons t ts ih =>
        intro s hs
        exact ih _ (pendingConsistent_step t s hs)
  exact gen tokens initialState rfl

theorem pending_pair_invariant :
    (∀ tokens : List String, pendingConsistent (dispatchAll tokens)) ∧
    ∀ (label : String) (s : CalculatorState), pendingConsistent s →
      pendingConsistent (handleButtonClick label s) :=
  ⟨pendingConsistent_dispatchAll, pendingConsistent_step⟩

/-- C9: Equals is idempotent when no tokens intervene: dispatching
Equals twice in a row from any state at all gives exactly the same
state (display included) as dispatching it once; and in every state
reachable from the initial state, after one Equals no pending operator
remains, so the second Equals takes its no-op branch. -/
theorem equals_idempotent :
    (∀ s : CalculatorState,
        handleButtonClick "=" (handleButtonClick "=" s) =
          handleButtonClick "=" s) ∧
    ∀ tokens : List String,
      (handleButtonClick "=" (dispatchAll tokens)).operation = none := by
  constructor
  · intro s
    simp only [handleButtonClick_equals]
    rcases ho : s.operation with _ | op <;>
      rcases hp : s.previousValue with _ | pv <;>
        simp [performEquals, ho, hp, initialState]
  · intro tokens
    rw [handleButtonClick_equals]
    have hc := pendingConsistent_dispatchAll tokens
    unfold pendingConsistent at hc
    rcases ho : (dispatchAll tokens).operation with _ | op
    · simp [performEquals, ho]
    · rw [ho] at hc
      simp at hc
      obtain ⟨p, hp⟩ := Option.isSome_iff_exists.mp hc
      simp [performEquals, ho, hp, initialState]

/-- Witness for C7 (the second conjunct has a hypothesis): the
preservation applied to the operator `"+"` on the initial state. -/
theorem pending_pair_invariant_witness :
    pendingConsistent (handleButtonClick "+" initialState) :=
  pending_pair_invariant.2 "+" initialState rfl

/-! ## C8 — digit sequences into a fresh state -/

/-- The ten digit tokens. -/
def digitTokens : List String :=
  ["0", "1", "2", "3", "4", "5", "6", "7", "8", "9"]

/-- Claim-side definition, following the spec's words for C8: the typed
digit-token sequence with leading-zero collapsing applied (leading
`"0"` tokens are dropped; an all-zero or empty sequence shows `"0"`). -/
def specCollapsedDigits (ts : List String) : List Char :=
  let r := ts.dropWhile (· = "0")
  if r.isEmpty then ['0'] else (r.map String.data).flatten

theorem digitTokens_includes {t : String} (ht : t ∈ digitTokens) :
    jsIncludes "0123456789" t = true := by
  simp [digitTokens] at ht
  rcases ht with rfl | rfl | rfl | rfl | rfl | rfl | rfl | rfl | rfl |
    rfl <;> decide

theorem digitTokens_data {t : String} (ht : t ∈ digitTokens) :
    ∃ c, t.data = [c] ∧ ((t = "0") ↔ c = '0') := by
  simp [digitTokens] at ht
  rcases ht with rfl | rfl | rfl | rfl | rfl | rfl | rfl | rfl | rfl | rfl
  · exact ⟨'0', by decide, by decide⟩
  · exact ⟨'1', by decide, by decide⟩
  · exact ⟨'2', by decide, by decide⟩
  · exact ⟨'3', by decide, by decide⟩
  · exact ⟨'4', by decide, by decide⟩
  · exact ⟨'5', by decide, by decide⟩
  · exact ⟨'6', by decide, by decide⟩
  · exact ⟨'7', by decide, by decide⟩
  · exact ⟨'8', by decide, by decide⟩
  · exact ⟨'9', by decide, by decide⟩

theorem handleButtonClick_digit {t : String} (ht : t ∈ digitTokens)
    (s : CalculatorState) : handleButtonClick t s = inputDigit t s := by
  have h := digitTokens_includes ht
  simp [handleButtonClick, h]

theorem dispatchAll_append (ts : List String) (t : String) :
    dispatchAll (ts ++ [t]) = handleButtonClick t (dispatchAll ts) := by
  simp [dispatchAll, List.foldl_append]

theorem specCollapsedDigits_append (ts : List String) (t : String) :
    specCollapsedDigits (ts ++ [t]) =
      if (ts.dropWhile (· = "0")).isEmpty then
        (if t = "0" then ['0'] else t.data)
      else specCollapsedDigits ts ++ t.data := by
  simp only [specCollapsedDigits]
  rw [List.dropWhile_append]
  by_cases hz : (ts.dropWhile (· = "0")).isEmpty
  · rw [if_pos hz, if_pos hz]
    by_cases ht0 : t = "0"
    · subst ht0
      simp [List.dropWhile]
    · simp [List.dropWhile, ht0]
  · rw [if_neg hz]
    simp [hz, List.map_append, List.flatten_append]

theorem dropWhile_head_false {α : Type} {p : α → Bool} :
    ∀ {l : List α} {x : α} {xs : List α},
      l.dropWhile p = x :: xs → p x = false := by
  intro l
  induction l with
  | nil =>
      intro x xs hcontra
      simp [List.dropWhile] at hcontra
  | cons a as ih =>
      intro x xs h
      rw [List.dropWhile_cons] at h
      by_cases hpa : p a = true
      · rw [if_pos hpa] at h
        exact ih h
      · rw [if_neg hpa] at h
        injection h with h1 _
        subst h1
        simpa using hpa

theorem inputDigit_notWaiting_full {d : String} {s : CalculatorState}
    (hw : s.waitingForOperand = false)
    (hlen : s.displayValue.length ≥ 15) : inputDigit d s = s := by
  simp [inputDigit, hw, hlen]

theorem inputDigit_notWaiting_onZero {d : String} {s : CalculatorState}
    (hw : s.waitingForOperand = false) (h0 : s.displayValue = "0") :
    inputDigit d s = { s with displayValue := d } := by
  have hlen : ¬ s.displayValue.length ≥ 15 := by
    rw [h0]
    decide
  simp [inputDigit, hw, hlen, h0]
  intro hcontra
  exact absurd hcontra (by decide)

theorem inputDigit_notWaiting_append {d : String} {s : CalculatorState}
    (hw : s.waitingForOperand = false)
    (hlen : s.displayValue.length < 15) (h0 : s.displayValue ≠ "0") :
    inputDigit d s = { s with displayValue := s.displayValue ++ d } := by
  have hle : ¬ s.displayValue.length ≥ 15 := by omega
  simp [inputDigit, hw, hle, h0]

theorem digits_state (ts : List String) :
    (∀ t ∈ ts, t ∈ digitTokens) →
    dispatchAll ts =
      ⟨⟨(specCollapsedDigits ts).take 15⟩, none, none, false, ""⟩ := by
  induction ts using List.reverseRecOn with
  | nil =>
      intro _
      decide
  | append_singleton ts t ih =>
      intro h
      have hts : ∀ x ∈ ts, x ∈ digitTokens := fun x hx =>
        h x (List.mem_append_left _ hx)
      have ht : t ∈ digitTokens := h t (List.mem_append_right _ (by simp))
      rw [dispatchAll_append, ih hts, handleButtonClick_digit ht,
        specCollapsedDigits_append]
      obtain ⟨c, hc, hc0⟩ := digitTokens_data ht
      have ht' : t = ⟨[c]⟩ := by
        rcases t with ⟨d⟩
        exact congrArg String.mk hc
      by_cases hz : (ts.dropWhile (· = "0")).isEmpty
      · rw [if_pos hz]
        have hcts : specCollapsedDigits ts = ['0'] := by
          simp [specCollapsedDigits, hz]
        rw [hcts]
        by_cases ht0 : t = "0"
        · subst ht0
          rw [if_pos rfl]
          decide
        · rw [if_neg ht0, hc]
          rw [inputDigit_notWaiting_onZero rfl rfl, ht']
          rfl
      · rw [if_neg hz]
        have hr : ts.dropWhile (· = "0") ≠ [] := by
          simpa [List.isEmpty_iff] using hz
        obtain ⟨x, xs, hxs⟩ := List.exists_cons_of_ne_nil hr
        have hxmem : x ∈ ts := by
          have hx' : x ∈ ts.dropWhile (· = "0") := by
            rw [hxs]
            exact List.mem_cons_self x xs
          exact (List.dropWhile_sublist _).subset hx'
        obtain ⟨cx, hcx, hcx0⟩ := digitTokens_data (hts x hxmem)
        have hxne : x ≠ "0" := by
          have hpx := dropWhile_head_false hxs
          simpa using hpx
        have hcx0' : cx ≠ '0' := fun hcc => hxne (hcx0.mpr hcc)
        have hL : specCollapsedDigits ts =
            cx :: (xs.map String.data).flatten := by
          simp [specCollapsedDigits, hz, hxs, hcx]
        rw [hL, hc, ht']
        set R := (xs.map String.data).flatten with hR
        have htake : (cx :: R).take 15 = cx :: R.take 14 := rfl
        by_cases hlen : 14 ≤ R.length
        · have hlen2 : (⟨(cx :: R).take 15⟩ : String).length ≥ 15 := by
            simp [htake, List.length_take]
            omega
          rw [inputDigit_notWaiting_full rfl hlen2]
          have hsame : ((cx :: R) ++ [c]).take 15 = (cx :: R).take 15 := by
            have hz15 : 15 - (cx :: R).length = 0 := by
              simp
              omega
            rw [List.take_append_eq_append_take, hz15]
            simp
          rw [hsame]
        · push_neg at hlen
          have htake14 : R.take 14 = R := List.take_of_length_le (by omega)
          have hlt : (⟨(cx :: R).take 15⟩ : String).length < 15 := by
            simp [htake, htake14]
            omega
          have hne0 : (⟨(cx :: R).take 15⟩ : String) ≠ "0" := by
            rw [htake, htake14]
            intro heq
            have hdata : cx :: R = ['0'] := congrArg String.data heq
            exact hcx0' (List.cons.injEq _ _ _ _ ▸ hdata).1
          rw [inputDigit_notWaiting_append rfl hlt hne0]
          have hall : ((cx :: R) ++ [c]).take 15 = (cx :: R) ++ [c] :=
            List.take_of_length_le (by simp; omega)
          rw [hall, htake, htake14]
          rfl

/-- C8 counterexample: typing sixteen `1` digits into a fresh state
leaves a 15-character buffer (the sixteenth digit is dropped by the
length cap), so the buffer does not equal the typed sequence with
leading-zero collapsing applied, which has 16 characters. -/
theorem leading_zero_collapse_counterexample :
    (∀ t ∈ List.replicate 16 "1", t ∈ digitTokens) ∧
    (dispatchAll (List.replicate 16 "1")).displayValue.data ≠
      specCollapsedDigits (List.replicate 16 "1") ∧
    (dispatchAll (List.replicate 16 "1")).displayValue =
      "111111111111111" := by
  decide

/-- C8 amended: for every sequence of digit tokens dispatched into a
fresh state, the display buffer equals the typed sequence with
leading-zero collapsing applied, truncated to its first 15 characters
(typing `0` then `5` yields `"5"`, not `"05"`). -/
theorem digits_collapse_truncated (ts : List String)
    (h : ∀ t ∈ ts, t ∈ digitTokens) :
    (dispatchAll ts).displayValue =
      ⟨(specCollapsedDigits ts).take 15⟩ := by
  rw [digits_state ts h]

/-- Witness for C8 (amended) at the sequence `0 5`, whose collapsed
form is `"5"`. -/
theorem digits_collapse_truncated_witness :
    (dispatchAll ["0", "5"]).displayValue =
      ⟨(specCollapsedDigits ["0", "5"]).take 15⟩ ∧
    (dispatchAll ["0", "5"]).displayValue = "5" :=
  ⟨digits_collapse_truncated ["0", "5"] (by decide), by decide⟩
